import Mathlib

/-!
Verification of the Utterance turn-taking pipeline.

This file gives a shallow embedding, over exact rational arithmetic, of the
core signal-to-event pipeline of the Utterance repository:

* `TurnDetector` (src/detector.ts): the finite state machine that consumes
  classification results and emits debounced turn-taking events;
* `EnergyVAD` (src/model/energy-vad.ts): the fallback RMS-energy classifier;
* `ONNXModel` (src/model/onnx.ts): the buffering discipline of `predict` and
  the post-inference energy gating of `runInference` (the opaque neural model
  is abstracted as its four output probabilities, as the source treats it as a
  tensor-in/tensor-out capability);
* `FeatureExtractor` (src/features/extractor.ts): the energy-driven speech
  rate and pause duration features (the MFCC/FFT/pitch channels do not enter
  the properties proved here and are not needed by them);
* `Utterance` (src/utterance.ts): the public start/stop surface, with external
  effects (capture, model handle) recorded as an explicit action trace.

Numbers that are IEEE doubles in the source are modelled as rationals; every
arithmetic step of the source is mirrored exactly, so all comparisons and
branch decisions coincide with the source on the inputs considered here.
Wall-clock reads (`Date.now()`) are passed in as an explicit `now` argument.
-/

namespace Utter

/-- The four classification labels, in the model output index order of
`LABELS` in src/model/onnx.ts. -/
inductive ClassificationLabel
  | speaking
  | thinking_pause
  | turn_complete
  | interrupt_intent
  deriving DecidableEq, Repr

/-- A classification result: label, confidence and timestamp (ms), as in
src/types.ts. -/
structure ClassificationResult where
  label : ClassificationLabel
  confidence : ℚ
  timestamp : ℚ
  deriving DecidableEq, Repr

/-- The detector state field of `TurnDetector` in src/detector.ts. -/
inductive TurnState
  | idle
  | speaking
  | paused
  deriving DecidableEq, Repr

/-- The events a `TurnDetector` emits, with the payload fields the source
attaches to each (src/detector.ts `emit` call sites). -/
inductive UtteranceEvent
  | speechStart (timestamp : ℚ)
  | pause (duration : ℚ) (confidence : ℚ)
  | turnEnd (confidence : ℚ) (duration : ℚ)
  | interrupt (timestamp : ℚ) (confidence : ℚ)
  deriving DecidableEq, Repr

/-- The mutable fields of `TurnDetector` (src/detector.ts), together with its
two immutable configuration values. -/
structure TurnDetector where
  state : TurnState
  pauseStart : ℚ
  speakStart : ℚ
  lastInterruptTs : ℚ
  interruptStreak : ℕ
  speakStreak : ℕ
  sensitivity : ℚ
  pauseTolerance : ℚ
  deriving DecidableEq, Repr

namespace TurnDetector

/-- `SPEAK_DEBOUNCE` in src/detector.ts. -/
def SPEAK_DEBOUNCE : ℕ := 2

/-- `INTERRUPT_DEBOUNCE` in src/detector.ts. -/
def INTERRUPT_DEBOUNCE : ℕ := 3

/-- `INTERRUPT_COOLDOWN_MS` in src/detector.ts. -/
def INTERRUPT_COOLDOWN_MS : ℚ := 3000

/-- The `TurnDetector` constructor: all mutable fields at their field
initializers, configuration stored. -/
def init (sensitivity pauseTolerance : ℚ) : TurnDetector :=
  { state := .idle
    pauseStart := 0
    speakStart := 0
    lastInterruptTs := 0
    interruptStreak := 0
    speakStreak := 0
    sensitivity := sensitivity
    pauseTolerance := pauseTolerance }

/-- `TurnDetector.reset` in src/detector.ts: mutable fields back to their
initial values, configuration kept. -/
def reset (d : TurnDetector) : TurnDetector :=
  { d with
    state := .idle
    pauseStart := 0
    speakStart := 0
    lastInterruptTs := 0
    interruptStreak := 0
    speakStreak := 0 }

/-- `TurnDetector.process` in src/detector.ts, as a pure step function
returning the updated detector and the list of events emitted during the call
(the source emits zero or one per call). Every state write of the source
happens before its `emit` call, so returning the post-write state together
with the emitted events is an exact rendering of the method body. -/
def process (d : TurnDetector) (r : ClassificationResult) :
    TurnDetector × List UtteranceEvent :=
  let threshold := d.sensitivity
  match r.label with
  | .speaking =>
    let d := { d with interruptStreak := 0, speakStreak := d.speakStreak + 1 }
    if d.state ≠ TurnState.speaking ∧ SPEAK_DEBOUNCE ≤ d.speakStreak then
      ({ d with state := .speaking, speakStart := r.timestamp, speakStreak := 0 },
       [.speechStart r.timestamp])
    else
      (d, [])
  | .thinking_pause =>
    let d := { d with speakStreak := 0 }
    if d.state = TurnState.speaking ∧ threshold ≤ r.confidence then
      ({ d with state := .paused, pauseStart := r.timestamp },
       [.pause 0 r.confidence])
    else if d.state = TurnState.paused then
      let duration := r.timestamp - d.pauseStart
      if d.pauseTolerance ≤ duration then
        ({ d with state := .idle },
         [.turnEnd r.confidence (r.timestamp - d.speakStart)])
      else
        (d, [])
    else
      (d, [])
  | .turn_complete =>
    let d := { d with speakStreak := 0 }
    if (d.state = TurnState.speaking ∨ d.state = TurnState.paused) ∧
        threshold ≤ r.confidence then
      ({ d with state := .idle },
       [.turnEnd r.confidence (r.timestamp - d.speakStart)])
    else
      (d, [])
  | .interrupt_intent =>
    let d := { d with speakStreak := 0 }
    if threshold ≤ r.confidence then
      let d := { d with interruptStreak := d.interruptStreak + 1 }
      if INTERRUPT_DEBOUNCE ≤ d.interruptStreak ∧
          INTERRUPT_COOLDOWN_MS ≤ r.timestamp - d.lastInterruptTs then
        ({ d with lastInterruptTs := r.timestamp, interruptStreak := 0 },
         [.interrupt r.timestamp r.confidence])
      else
        (d, [])
    else
      ({ d with interruptStreak := 0 }, [])

/-- Fold `process` over a list of results, collecting all emitted events in
order. This models a caller feeding classification results one by one. -/
def processAll (d : TurnDetector) (rs : List ClassificationResult) :
    TurnDetector × List UtteranceEvent :=
  match rs with
  | [] => (d, [])
  | r :: rest =>
    let step := d.process r
    let restRun := processAll step.1 rest
    (restRun.1, step.2 ++ restRun.2)

end TurnDetector

/-- Recognizer for `speechStart` events. -/
def UtteranceEvent.isSpeechStart : UtteranceEvent → Bool
  | .speechStart _ => true
  | _ => false

/-- The `(confidence, duration)` payload of a `turnEnd` event, if any. -/
def UtteranceEvent.turnEndData : UtteranceEvent → Option (ℚ × ℚ)
  | .turnEnd c dur => some (c, dur)
  | _ => none

/-- JS `Set.forEach` semantics of `TurnDetector.emit` (src/detector.ts):
listeners registered for the emitted event run in registration order, and
`forEach` does not catch exceptions — the first throwing listener is invoked,
iteration stops there, and the exception propagates. `ls` records per listener
whether its callback throws; the result is the list of invoked listener
indices (numbered from `k`) and a flag saying whether an exception escaped. -/
def emitRunFrom : List Bool → ℕ → List ℕ × Bool
  | [], _ => ([], false)
  | b :: rest, k =>
    if b then ([k], true)
    else
      let r := emitRunFrom rest (k + 1)
      (k :: r.1, r.2)

/-- Invoked listener indices (0-based registration order) and the
exception-escaped flag for one `emit` call. -/
def emitRun (ls : List Bool) : List ℕ × Bool := emitRunFrom ls 0

/-- `TurnDetector.process` observed together with listener delivery for the
event it emits (if any): `ls` records, in registration order, whether each
listener registered for that event throws. Every state write in the source
precedes the `emit` call and `emit` is the last statement of each case, so the
post-call detector state is the state `process` computes regardless of listener
behaviour; only delivery to the remaining listeners is cut short. -/
def TurnDetector.processWith (d : TurnDetector) (r : ClassificationResult)
    (ls : List Bool) : TurnDetector × (List ℕ × Bool) :=
  let step := d.process r
  match step.2 with
  | [] => (step.1, ([], false))
  | _ :: _ => (step.1, emitRun ls)

/-- The fields of `EnergyVAD` (src/model/energy-vad.ts): the two thresholds
derived in the constructor, the `isSpeaking` flag, the `silenceStart` timestamp
(0 meaning: no silence timer running), and the `pauseHintMs` constant. -/
structure EnergyVAD where
  speechThreshold : ℚ
  silenceThreshold : ℚ
  isSpeaking : Bool
  silenceStart : ℚ
  pauseHintMs : ℚ
  deriving DecidableEq, Repr

namespace EnergyVAD

/-- The `EnergyVAD` constructor:
`speechThreshold = 0.015 * (1 - sensitivity * 0.8)`,
`silenceThreshold = speechThreshold * 0.6`, `pauseHintMs = 800`. -/
def init (sensitivity : ℚ) : EnergyVAD :=
  let speechThreshold := 0.015 * (1 - sensitivity * 0.8)
  { speechThreshold := speechThreshold
    silenceThreshold := speechThreshold * 0.6
    isSpeaking := false
    silenceStart := 0
    pauseHintMs := 800 }

/-- `EnergyVAD.energyToConfidence`: `min(energy / (speechThreshold * 4), 1)`. -/
def energyToConfidence (v : EnergyVAD) (energy : ℚ) : ℚ :=
  min (energy / (v.speechThreshold * 4)) 1

/-- `EnergyVAD.classify` (src/model/energy-vad.ts), with the RMS energy taken
from the features argument and `Date.now()` passed in as `now`. Returns the
updated VAD state and the (always present) classification result. -/
def classify (v : EnergyVAD) (energy : ℚ) (now : ℚ) :
    EnergyVAD × ClassificationResult :=
  if ¬v.isSpeaking = true ∧ v.speechThreshold ≤ energy then
    ({ v with isSpeaking := true, silenceStart := 0 },
     ⟨.speaking, v.energyToConfidence energy, now⟩)
  else if v.isSpeaking = true ∧ v.silenceThreshold ≤ energy then
    ({ v with silenceStart := 0 },
     ⟨.speaking, v.energyToConfidence energy, now⟩)
  else if v.isSpeaking = true ∧ energy < v.silenceThreshold then
    let silenceStart := if v.silenceStart = 0 then now else v.silenceStart
    let silenceDuration := now - silenceStart
    if v.pauseHintMs ≤ silenceDuration then
      ({ v with isSpeaking := false, silenceStart := silenceStart },
       ⟨.turn_complete, min (silenceDuration / (v.pauseHintMs * 2)) 1, now⟩)
    else
      ({ v with silenceStart := silenceStart },
       ⟨.thinking_pause, 0.6, now⟩)
  else
    (v, ⟨.thinking_pause, 0.3, now⟩)

/-- `EnergyVAD.reset`. -/
def reset (v : EnergyVAD) : EnergyVAD :=
  { v with isSpeaking := false, silenceStart := 0 }

end EnergyVAD

/-- `FEATURE_DIM` in src/model/onnx.ts. -/
def FEATURE_DIM : ℕ := 17

/-- `CONTEXT_FRAMES` in src/model/onnx.ts. -/
def CONTEXT_FRAMES : ℕ := 100

/-- `INFERENCE_INTERVAL` in src/model/onnx.ts. -/
def INFERENCE_INTERVAL : ℕ := 10

/-- `SILENCE_ENTER_THRESHOLD` in `runInference` (src/model/onnx.ts). -/
def SILENCE_ENTER_THRESHOLD : ℚ := 0.02

/-- `SILENCE_EXIT_THRESHOLD` in `runInference` (src/model/onnx.ts). -/
def SILENCE_EXIT_THRESHOLD : ℚ := 0.06

/-- `INTERRUPT_ENERGY_THRESHOLD` in `runInference` (src/model/onnx.ts). -/
def INTERRUPT_ENERGY_THRESHOLD : ℚ := 0.08

/-- The mean raw energy of the 10 most recent frames of the chronological
context window, read at feature index 13 before any normalization
(`runInference`, src/model/onnx.ts: the `recentEnergy` loop over frames
`CONTEXT_FRAMES - 10` to `CONTEXT_FRAMES - 1` of the unrolled window). Frames
are the 17-float feature vectors; the window is kept here directly in
chronological order, which is what the unroll loop produces. -/
def recentRawEnergy (window : List (List ℚ)) : ℚ :=
  (((window.drop (window.length - 10)).map (fun f => f.getD 13 0)).sum) / 10

/-- The argmax scan over the four softmax probabilities (`runInference`:
`bestIdx`/`bestProb`, starting at index 0 and updating on strictly greater
probability). -/
def argmax4 (p0 p1 p2 p3 : ℚ) : ℕ × ℚ :=
  let best : ℕ × ℚ := (0, p0)
  let best := if best.2 < p1 then (1, p1) else best
  let best := if best.2 < p2 then (2, p2) else best
  if best.2 < p3 then (3, p3) else best

/-- `LABELS[i]` (src/model/onnx.ts): model output index to label. Indices
other than 0..3 do not occur. -/
def labelAt : ℕ → ClassificationLabel
  | 0 => .speaking
  | 1 => .thinking_pause
  | 2 => .turn_complete
  | _ => .interrupt_intent

/-- The silence-mode hysteresis update of `runInference`: in silence mode, exit
only when the recent raw energy rises above `SILENCE_EXIT_THRESHOLD`; out of
silence mode, enter when it drops below `SILENCE_ENTER_THRESHOLD`. -/
def updateSilenceMode (mode : Bool) (recentEnergy : ℚ) : Bool :=
  if mode = true then
    if SILENCE_EXIT_THRESHOLD < recentEnergy then false else true
  else
    if recentEnergy < SILENCE_ENTER_THRESHOLD then true else false

/-- The post-softmax tail of `runInference` (src/model/onnx.ts): argmax over
the four probabilities, silence-mode hysteresis with the speaking/interrupt
override, then the interrupt energy gate; `p0 p1 p2 p3` are the softmax outputs
of the opaque model for speaking, thinking_pause, turn_complete and
interrupt_intent, and `recentEnergy` is the pre-normalization mean raw energy
of the last 10 frames. Returns the updated silence-mode flag and the
classification result (`Date.now()` passed as `now`). -/
def runInferenceGate (mode : Bool) (recentEnergy : ℚ) (p0 p1 p2 p3 now : ℚ) :
    Bool × ClassificationResult :=
  let best := argmax4 p0 p1 p2 p3
  let mode' := updateSilenceMode mode recentEnergy
  let best :=
    if mode' = true ∧ (labelAt best.1 = ClassificationLabel.speaking ∨
        labelAt best.1 = ClassificationLabel.interrupt_intent) then
      (1, max p1 0.7)
    else best
  let best :=
    if labelAt best.1 = ClassificationLabel.interrupt_intent ∧
        recentEnergy < INTERRUPT_ENERGY_THRESHOLD then
      (0, p0)
    else best
  (mode', ⟨labelAt best.1, best.2, now⟩)

/-- `runInference` gating stage applied to a chronological window: the recent
raw energy is measured on the raw window before normalization. -/
def runInferenceStep (mode : Bool) (window : List (List ℚ))
    (p0 p1 p2 p3 now : ℚ) : Bool × ClassificationResult :=
  runInferenceGate mode (recentRawEnergy window) p0 p1 p2 p3 now

/-- The buffering state of `ONNXModel` (src/model/onnx.ts): whether an
inference session is loaded, the chronological content of the 100-frame ring
buffer (the arena-plus-cursor buffer of the source holds exactly the most
recent `min(framesSeen, 100)` frames; we keep them directly in chronological
order), the frames-buffered counter (capped at 100) and the
frames-since-last-inference counter, plus the silence-mode flag. -/
structure ONNXModel where
  sessionLoaded : Bool
  frameWindow : List (List ℚ)
  framesBuffered : ℕ
  framesSinceInference : ℕ
  silenceMode : Bool
  deriving DecidableEq, Repr

namespace ONNXModel

/-- A fresh `ONNXModel` after construction (before `load`): no session, empty
buffer. -/
def init : ONNXModel := ⟨false, [], 0, 0, false⟩

/-- `ONNXModel.addFrame`: append the 17-dim frame to the ring buffer
(chronologically: keep the most recent 100) and bump `framesBuffered`, capped
at `CONTEXT_FRAMES`. -/
def addFrame (m : ONNXModel) (frame : List ℚ) : ONNXModel :=
  let w := m.frameWindow ++ [frame]
  { m with
    frameWindow := if CONTEXT_FRAMES < w.length then w.drop (w.length - CONTEXT_FRAMES) else w
    framesBuffered :=
      if m.framesBuffered < CONTEXT_FRAMES then m.framesBuffered + 1
      else m.framesBuffered }

/-- The three ways one `predict` call can answer (src/model/onnx.ts): delegate
to the EnergyVAD fallback (no session, or inference threw), return the fresh
inference result, or return the still-buffering sentinel `null`. Only
`buffering` is the null return; the other two produce a classification. -/
inductive PredictOutcome
  | fallback
  | buffering
  | inferred
  deriving DecidableEq, Repr

/-- The control flow of `ONNXModel.predict` (src/model/onnx.ts): without a
loaded session, delegate to EnergyVAD; otherwise add the frame, bump the
since-inference counter, and run inference exactly when that counter has
reached `INFERENCE_INTERVAL` and the buffer holds `CONTEXT_FRAMES` frames
(resetting the counter), else return the null sentinel. -/
def predictStep (m : ONNXModel) (frame : List ℚ) : ONNXModel × PredictOutcome :=
  if m.sessionLoaded = false then (m, .fallback)
  else
    let m := m.addFrame frame
    let m := { m with framesSinceInference := m.framesSinceInference + 1 }
    if INFERENCE_INTERVAL ≤ m.framesSinceInference ∧
        CONTEXT_FRAMES ≤ m.framesBuffered then
      ({ m with framesSinceInference := 0 }, .inferred)
    else
      (m, .buffering)

end ONNXModel

/-- The energy-driven state of `FeatureExtractor` (src/features/extractor.ts):
the pause accumulator (seconds of consecutive silence) and the rolling
1-second energy ring buffer, kept here directly in chronological order (the
source arena-plus-cursor buffer holds exactly the most recent
`min(framesSeen, 100)` energies, and the peak loop reads it chronologically).
The MFCC, FFT and pitch channels of `extract` do not feed back into these two
features and are not modelled. -/
structure FeatureExtractor where
  silenceAccumulator : ℚ
  energyBuffer : List ℚ
  deriving DecidableEq, Repr

namespace FeatureExtractor

/-- `silenceThreshold` field initializer (src/features/extractor.ts). -/
def silenceThreshold : ℚ := 0.01

/-- `frameDurationSec` (10 ms hop). -/
def frameDurationSec : ℚ := 0.01

/-- Rolling energy buffer capacity: `floor(1.0 / frameDurationSec)` frames. -/
def energyBufferCapacity : ℕ := 100

/-- The extractor state right after construction (and after `reset`). -/
def init : FeatureExtractor := ⟨0, []⟩

/-- Ring-buffer push of one frame energy: keep the most recent
`energyBufferCapacity` energies in chronological order. -/
def pushEnergy (buf : List ℚ) (e : ℚ) : List ℚ :=
  let w := buf ++ [e]
  if energyBufferCapacity < w.length then w.drop (w.length - energyBufferCapacity)
  else w

/-- The peak test of `estimateSpeechRate`: position `i` of the chronological
window (the loop runs `i` from 2 to `len - 3`) is a local maximum strictly
above `silenceThreshold * 0.5`. -/
def isPeak (w : List ℚ) (i : ℕ) : Bool :=
  if 2 ≤ i ∧ i + 2 < w.length ∧
      w.getD (i - 1) 0 < w.getD i 0 ∧ w.getD (i + 1) 0 < w.getD i 0 ∧
      silenceThreshold * 0.5 < w.getD i 0 then true else false

/-- Number of energy peaks in the window. -/
def countPeaks (w : List ℚ) : ℕ := (List.range w.length).countP (isPeak w)

/-- `FeatureExtractor.estimateSpeechRate` (src/features/extractor.ts) on the
post-push window: 0 when fewer than 5 energies are buffered, otherwise
`(peaks / windowDurationSeconds) / 10`. -/
def estimateSpeechRate (w : List ℚ) : ℚ :=
  if w.length < 5 then 0
  else
    let peaks := countPeaks w
    let windowDuration := (w.length : ℚ) * frameDurationSec
    let rate := if 0 < windowDuration then (peaks : ℚ) / windowDuration else 0
    rate / 10

/-- `FeatureExtractor.updatePauseDuration`: accumulate `frameDurationSec`
while the energy stays below `silenceThreshold`, reset on a loud frame, and
report `min(accumulated, 5.0) / 5.0`. Returns (new accumulator, reported
value). -/
def updatePauseDuration (acc e : ℚ) : ℚ × ℚ :=
  let acc := if e < silenceThreshold then acc + frameDurationSec else 0
  (acc, min acc 5 / 5)

/-- One `extract` call, restricted to the two energy-driven features: push the
frame energy, compute the speech rate on the updated window, update the pause
accumulator. Returns the new state and the `(speechRate, pauseDuration)` pair
of the produced `AudioFeatures`. -/
def extractStep (s : FeatureExtractor) (e : ℚ) : FeatureExtractor × ℚ × ℚ :=
  let w := pushEnergy s.energyBuffer e
  let sr := estimateSpeechRate w
  let pd := updatePauseDuration s.silenceAccumulator e
  (⟨pd.1, w⟩, sr, pd.2)

/-- Fold `extractStep` over a sequence of frame energies, collecting the
`(speechRate, pauseDuration)` outputs. -/
def extractRun (s : FeatureExtractor) (es : List ℚ) :
    FeatureExtractor × List (ℚ × ℚ) :=
  match es with
  | [] => (s, [])
  | e :: rest =>
    let step := extractStep s e
    let restRun := extractRun step.1 rest
    (restRun.1, step.2 :: restRun.2)

end FeatureExtractor

/-- The externally visible effects `Utterance.start` and `Utterance.stop`
perform on their collaborators (src/utterance.ts): loading the model,
registering the audio callback, starting and stopping capture, disposing the
model handle, and resetting the detector. -/
inductive UAction
  | loadModel
  | registerCallback
  | audioStart
  | audioStop
  | disposeModel
  | resetDetector
  deriving DecidableEq, Repr

/-- The state of an `Utterance` instance (src/utterance.ts) relevant to its
public start/stop surface: the `listening` flag, the `processing` re-entrancy
guard, the accumulation-buffer fill level, whether a model handle is held and
whether the audio callback is registered, plus the owned detector. -/
structure Utterance where
  listening : Bool
  processing : Bool
  sampleBufferLen : ℕ
  modelLoaded : Bool
  callbackRegistered : Bool
  detector : TurnDetector
  deriving DecidableEq, Repr

namespace Utterance

/-- `Utterance.start` (src/utterance.ts, lines 187-212): an early return when
already listening, otherwise (successful path) load the model, clear the
accumulation buffer and the re-entrancy guard, register the audio callback,
start capture and set `listening`. The second component is the trace of
effects performed on the collaborators. -/
def start (u : Utterance) : Utterance × List UAction :=
  if u.listening = true then (u, [])
  else
    ({ u with
        modelLoaded := true
        sampleBufferLen := 0
        processing := false
        callbackRegistered := true
        listening := true },
     [.loadModel, .registerCallback, .audioStart])

/-- `Utterance.stop` (src/utterance.ts, lines 255-263): an early return when
not listening, otherwise stop capture, dispose the model, reset the detector,
clear the accumulation buffer and drop `listening`. -/
def stop (u : Utterance) : Utterance × List UAction :=
  if u.listening = false then (u, [])
  else
    ({ u with
        listening := false
        sampleBufferLen := 0
        modelLoaded := false
        detector := u.detector.reset },
     [.audioStop, .disposeModel, .resetDetector])

end Utterance

/-- Unfolding lemma: running `processAll` on a cons head-first. -/
theorem TurnDetector.processAll_cons (d : TurnDetector) (r : ClassificationResult)
    (rs : List ClassificationResult) :
    TurnDetector.processAll d (r :: rs) =
      ((TurnDetector.processAll (d.process r).1 rs).1,
       (d.process r).2 ++ (TurnDetector.processAll (d.process r).1 rs).2) := rfl

/-- Unfolding lemma: `processAll` on the empty list. -/
theorem TurnDetector.processAll_nil (d : TurnDetector) :
    TurnDetector.processAll d [] = (d, []) := rfl

/-- C1, counterexample: with `TurnDetector(sensitivity = 1/2, pauseTolerance = 1000)`,
the sequence `speaking@t=0`, `thinking_pause@t=500`, `thinking_pause@t=1600` (pause
confidences 8/10, above the sensitivity) emits no event at all — in particular not
the single `turnEnd` with duration 1600 required by the claim. A lone `speaking`
result gives a speaking streak of 1, below `SPEAK_DEBOUNCE = 2`, so the detector
never leaves `idle` and the pause results fall through both pause branches. -/
theorem C1_counterexample :
    (TurnDetector.processAll (TurnDetector.init (1/2) 1000)
      [⟨.speaking, 9/10, 0⟩, ⟨.thinking_pause, 8/10, 500⟩,
       ⟨.thinking_pause, 8/10, 1600⟩]).2 = [] := by
  have hinit : TurnDetector.init (1/2) 1000 =
      ⟨.idle, 0, 0, 0, 0, 0, 1/2, 1000⟩ := rfl
  have h1 : TurnDetector.process ⟨.idle, 0, 0, 0, 0, 0, 1/2, 1000⟩
      ⟨.speaking, 9/10, 0⟩ = (⟨.idle, 0, 0, 0, 0, 1, 1/2, 1000⟩, []) := by
    simp [TurnDetector.process, TurnDetector.SPEAK_DEBOUNCE]
  have h2 : TurnDetector.process ⟨.idle, 0, 0, 0, 0, 1, 1/2, 1000⟩
      ⟨.thinking_pause, 8/10, 500⟩ = (⟨.idle, 0, 0, 0, 0, 0, 1/2, 1000⟩, []) := by
    simp [TurnDetector.process]
  have h3 : TurnDetector.process ⟨.idle, 0, 0, 0, 0, 0, 1/2, 1000⟩
      ⟨.thinking_pause, 8/10, 1600⟩ = (⟨.idle, 0, 0, 0, 0, 0, 1/2, 1000⟩, []) := by
    simp [TurnDetector.process]
  simp only [TurnDetector.processAll_cons, TurnDetector.processAll_nil, hinit,
    h1, h2, h3, List.append_nil, List.nil_append]

/-- C1, amended: the scenario of the claim reaches `turnEnd` once the initial
speech is long enough to pass the speaking debounce: with
`TurnDetector(sensitivity = 1/2, pauseTolerance = 1000)`, two `speaking` results at
t=0 followed by `thinking_pause` results at t=500 and t=1600, each pause confidence
at least the sensitivity, emit exactly one `turnEnd`, and its duration field equals
1600 (the second pause timestamp minus the recorded speech start 0). -/
theorem C1_turnEnd_with_debounced_speech (c1 c2 c3 c4 : ℚ)
    (h3 : 1/2 ≤ c3) (h4 : 1/2 ≤ c4) :
    ((TurnDetector.processAll (TurnDetector.init (1/2) 1000)
      [⟨.speaking, c1, 0⟩, ⟨.speaking, c2, 0⟩, ⟨.thinking_pause, c3, 500⟩,
       ⟨.thinking_pause, c4, 1600⟩]).2).filterMap UtteranceEvent.turnEndData
      = [(c4, 1600)] := by
  have hinit : TurnDetector.init (1/2) 1000 =
      ⟨.idle, 0, 0, 0, 0, 0, 1/2, 1000⟩ := rfl
  have h1 : TurnDetector.process ⟨.idle, 0, 0, 0, 0, 0, 1/2, 1000⟩
      ⟨.speaking, c1, 0⟩ = (⟨.idle, 0, 0, 0, 0, 1, 1/2, 1000⟩, []) := by
    simp [TurnDetector.process, TurnDetector.SPEAK_DEBOUNCE]
  have h2 : TurnDetector.process ⟨.idle, 0, 0, 0, 0, 1, 1/2, 1000⟩
      ⟨.speaking, c2, 0⟩ =
      (⟨.speaking, 0, 0, 0, 0, 0, 1/2, 1000⟩, [.speechStart 0]) := by
    simp [TurnDetector.process, TurnDetector.SPEAK_DEBOUNCE]
  have h5 : TurnDetector.process ⟨.speaking, 0, 0, 0, 0, 0, 1/2, 1000⟩
      ⟨.thinking_pause, c3, 500⟩ =
      (⟨.paused, 500, 0, 0, 0, 0, 1/2, 1000⟩, [.pause 0 c3]) := by
    have h3' : (2:ℚ)⁻¹ ≤ c3 := by simpa using h3
    simp [TurnDetector.process, h3']
  have h6 : TurnDetector.process ⟨.paused, 500, 0, 0, 0, 0, 1/2, 1000⟩
      ⟨.thinking_pause, c4, 1600⟩ =
      (⟨.idle, 500, 0, 0, 0, 0, 1/2, 1000⟩, [.turnEnd c4 1600]) := by
    have hd : (1000:ℚ) ≤ 1600 - 500 := by norm_num
    have hz : (1600:ℚ) - 0 = 1600 := by norm_num
    simp [TurnDetector.process, hd, hz]
  simp only [TurnDetector.processAll_cons, TurnDetector.processAll_nil, hinit,
    h1, h2, h5, h6, List.append_nil, List.nil_append, List.append_assoc,
    List.cons_append, List.filterMap_cons, List.filterMap_nil,
    UtteranceEvent.turnEndData]

/-- C1, witness: the amended theorem applied at pause confidence 8/10. -/
theorem C1_witness :
    (1/2 : ℚ) ≤ 8/10 ∧
    ((TurnDetector.processAll (TurnDetector.init (1/2) 1000)
      [⟨.speaking, 9/10, 0⟩, ⟨.speaking, 9/10, 0⟩, ⟨.thinking_pause, 8/10, 500⟩,
       ⟨.thinking_pause, 8/10, 1600⟩]).2).filterMap UtteranceEvent.turnEndData
      = [(8/10, 1600)] :=
  ⟨by norm_num,
   C1_turnEnd_with_debounced_speech (9/10) (9/10) (8/10) (8/10)
     (by norm_num) (by norm_num)⟩

/-- C3, counterexample: a `thinking_pause` result does not reset the
interrupt-streak. After one qualifying `interrupt_intent` (confidence 9/10 over
sensitivity 1/2) the streak is 1, and it is still 1 after a subsequent
`thinking_pause` — refuting the clause that every non-interrupt label resets the
interrupt-streak to 0. In src/detector.ts, the `thinking_pause` and
`turn_complete` cases only zero `speakStreak`; `interruptStreak` is zeroed in the
`speaking` case and in the failed-confidence branch of `interrupt_intent`. -/
theorem C3_counterexample :
    ((TurnDetector.init (1/2) 1500).process
        ⟨.interrupt_intent, 9/10, 0⟩).1.interruptStreak = 1 ∧
    (TurnDetector.processAll (TurnDetector.init (1/2) 1500)
        [⟨.interrupt_intent, 9/10, 0⟩,
         ⟨.thinking_pause, 9/10, 100⟩]).1.interruptStreak = 1 := by
  have hinit : TurnDetector.init (1/2) 1500 =
      ⟨.idle, 0, 0, 0, 0, 0, 1/2, 1500⟩ := rfl
  have hc : (2:ℚ)⁻¹ ≤ 9/10 := by norm_num
  have h1 : TurnDetector.process ⟨.idle, 0, 0, 0, 0, 0, 1/2, 1500⟩
      ⟨.interrupt_intent, 9/10, 0⟩ = (⟨.idle, 0, 0, 0, 1, 0, 1/2, 1500⟩, []) := by
    simp [TurnDetector.process, TurnDetector.INTERRUPT_DEBOUNCE, hc]
  have h2 : TurnDetector.process ⟨.idle, 0, 0, 0, 1, 0, 1/2, 1500⟩
      ⟨.thinking_pause, 9/10, 100⟩ = (⟨.idle, 0, 0, 0, 1, 0, 1/2, 1500⟩, []) := by
    simp [TurnDetector.process]
  refine ⟨?_, ?_⟩
  · rw [hinit, h1]
  · rw [TurnDetector.processAll_cons, hinit, h1]
    rw [TurnDetector.processAll_cons]
    norm_num [h2, TurnDetector.processAll_nil]

/-- C3, amended: the actual streak bookkeeping of `TurnDetector.process`.
A `speaking` result resets the interrupt-streak to 0 and increments the
speaking-streak (which drops back to 0 when the speechStart transition fires);
`thinking_pause` and `turn_complete` reset the speaking-streak to 0 but leave the
interrupt-streak unchanged (contrary to the claim, they do not reset it);
an `interrupt_intent` result resets the speaking-streak to 0, resets the
interrupt-streak to 0 when its confidence is below the sensitivity threshold, and
otherwise increments it (dropping it to 0 when the interrupt event fires). -/
theorem C3_streak_bookkeeping (d : TurnDetector) (r : ClassificationResult) :
    (r.label = .speaking →
      (d.process r).1.interruptStreak = 0 ∧
      ((d.process r).1.speakStreak = d.speakStreak + 1 ∨
        (d.process r).1.speakStreak = 0)) ∧
    ((r.label = .thinking_pause ∨ r.label = .turn_complete) →
      (d.process r).1.speakStreak = 0 ∧
      (d.process r).1.interruptStreak = d.interruptStreak) ∧
    (r.label = .interrupt_intent →
      (d.process r).1.speakStreak = 0 ∧
      (r.confidence < d.sensitivity → (d.process r).1.interruptStreak = 0) ∧
      (d.sensitivity ≤ r.confidence →
        (d.process r).1.interruptStreak = d.interruptStreak + 1 ∨
        (d.process r).1.interruptStreak = 0)) := by
  obtain ⟨l, c, t⟩ := r
  refine ⟨fun hl => ?_, fun hl => ?_, fun hl => ?_⟩
  · subst hl
    simp only [TurnDetector.process]
    split_ifs <;> simp
  · rcases hl with hl | hl <;> subst hl <;>
      simp only [TurnDetector.process] <;> split_ifs <;> simp
  · subst hl
    simp only [TurnDetector.process]
    constructor
    · split_ifs <;> simp
    constructor
    · intro hlt
      rw [if_neg (by simpa using not_le_of_lt hlt)]
    · intro hge
      rw [if_pos (by simpa using hge)]
      split_ifs <;> simp

/-- C3, witness: the amended theorem applied to a detector with interrupt-streak
1 receiving a `thinking_pause`: the speaking-streak is zeroed and the
interrupt-streak is left at 1. -/
theorem C3_witness :
    (TurnDetector.process ⟨.idle, 0, 0, 0, 1, 2, 1/2, 1500⟩
        ⟨.thinking_pause, 9/10, 100⟩).1.speakStreak = 0 ∧
    (TurnDetector.process ⟨.idle, 0, 0, 0, 1, 2, 1/2, 1500⟩
        ⟨.thinking_pause, 9/10, 100⟩).1.interruptStreak = 1 :=
  (C3_streak_bookkeeping ⟨.idle, 0, 0, 0, 1, 2, 1/2, 1500⟩
    ⟨.thinking_pause, 9/10, 100⟩).2.1 (Or.inl rfl)

/-- While the detector is already in the `speaking` state, a `speaking` result is
absorbed: no event is emitted and the state stays `speaking` (the speechStart
branch requires the state to differ from `speaking`). -/
theorem TurnDetector.speaking_absorbed (d : TurnDetector)
    (rs : List ClassificationResult) (hd : d.state = TurnState.speaking)
    (hrs : ∀ r ∈ rs, r.label = ClassificationLabel.speaking) :
    (TurnDetector.processAll d rs).1.state = TurnState.speaking ∧
    (TurnDetector.processAll d rs).2 = [] := by
  induction rs generalizing d with
  | nil => simpa [TurnDetector.processAll_nil] using hd
  | cons r rest ih =>
    have hr : r.label = ClassificationLabel.speaking := hrs r (by simp)
    have hstep : d.process r =
        ({ d with interruptStreak := 0, speakStreak := d.speakStreak + 1 }, []) := by
      obtain ⟨l, c, t⟩ := r
      cases hr
      simp [TurnDetector.process, hd]
    rw [TurnDetector.processAll_cons, hstep]
    simpa using ih _ (by simpa using hd) (fun x hx => hrs x (by simp [hx]))

/-- C4: from the initial `idle` state, two consecutive `speaking` results emit
exactly one `speechStart` (fired with the second result, when the
consecutive-speaking streak reaches the debounce threshold 2 while the state is
not `speaking`), and any number of further consecutive `speaking` results emit no
additional `speechStart`: the full `speechStart` trace of the run is the single
event carrying the second result's timestamp. -/
theorem C4_speechStart_fires_once (s p : ℚ) (r1 r2 : ClassificationResult)
    (rs : List ClassificationResult)
    (h1 : r1.label = ClassificationLabel.speaking)
    (h2 : r2.label = ClassificationLabel.speaking)
    (hrs : ∀ r ∈ rs, r.label = ClassificationLabel.speaking) :
    ((TurnDetector.processAll (TurnDetector.init s p) (r1 :: r2 :: rs)).2).filter
        UtteranceEvent.isSpeechStart = [.speechStart r2.timestamp] := by
  obtain ⟨l1, c1, t1⟩ := r1
  obtain ⟨l2, c2, t2⟩ := r2
  cases h1
  cases h2
  have hs1 : TurnDetector.process (TurnDetector.init s p)
      ⟨.speaking, c1, t1⟩ = (⟨.idle, 0, 0, 0, 0, 1, s, p⟩, []) := by
    simp [TurnDetector.process, TurnDetector.init, TurnDetector.SPEAK_DEBOUNCE]
  have hs2 : TurnDetector.process ⟨.idle, 0, 0, 0, 0, 1, s, p⟩
      ⟨.speaking, c2, t2⟩ =
      (⟨.speaking, 0, t2, 0, 0, 0, s, p⟩, [.speechStart t2]) := by
    simp [TurnDetector.process, TurnDetector.SPEAK_DEBOUNCE]
  have habs := TurnDetector.speaking_absorbed ⟨.speaking, 0, t2, 0, 0, 0, s, p⟩
    rs rfl hrs
  rw [TurnDetector.processAll_cons, hs1, TurnDetector.processAll_cons, hs2]
  simp [habs.2, UtteranceEvent.isSpeechStart]

/-- C4, witness: three concrete `speaking` results from idle produce exactly the
one `speechStart`, timestamped by the second result. -/
theorem C4_witness :
    ((TurnDetector.processAll (TurnDetector.init (1/2) 1500)
      [⟨.speaking, 9/10, 0⟩, ⟨.speaking, 9/10, 100⟩,
       ⟨.speaking, 9/10, 200⟩]).2).filter UtteranceEvent.isSpeechStart
      = [.speechStart 100] :=
  C4_speechStart_fires_once (1/2) 1500 ⟨.speaking, 9/10, 0⟩
    ⟨.speaking, 9/10, 100⟩ [⟨.speaking, 9/10, 200⟩] rfl rfl
    (fun r hr => by
      simp only [List.mem_singleton] at hr
      simp [hr])

/-- Single-step cooldown lemma: if the stored last-interrupt timestamp is 0 or at
least 3000, then any `interrupt` event emitted by one `process` call carries a
timestamp of at least 3000, and the stored value keeps the same property. -/
theorem TurnDetector.interrupt_step (d : TurnDetector) (r : ClassificationResult)
    (hd : d.lastInterruptTs = 0 ∨ 3000 ≤ d.lastInterruptTs) :
    (∀ ts c, UtteranceEvent.interrupt ts c ∈ (d.process r).2 → 3000 ≤ ts) ∧
    ((d.process r).1.lastInterruptTs = 0 ∨
      3000 ≤ (d.process r).1.lastInterruptTs) := by
  obtain ⟨l, c0, t⟩ := r
  cases l
  case speaking =>
    simp only [TurnDetector.process]
    split_ifs <;> exact ⟨by simp, by simpa using hd⟩
  case thinking_pause =>
    simp only [TurnDetector.process]
    split_ifs <;> exact ⟨by simp, by simpa using hd⟩
  case turn_complete =>
    simp only [TurnDetector.process]
    split_ifs <;> exact ⟨by simp, by simpa using hd⟩
  case interrupt_intent =>
    simp only [TurnDetector.process]
    split_ifs with hA hB
    · have hcool : TurnDetector.INTERRUPT_COOLDOWN_MS ≤ t - d.lastInterruptTs := hB.2
      have ht : 3000 ≤ t := by
        rw [TurnDetector.INTERRUPT_COOLDOWN_MS] at hcool
        rcases hd with h0 | h0 <;> linarith
      refine ⟨?_, Or.inr ht⟩
      intro ts c hmem
      simp only [List.mem_singleton] at hmem
      cases hmem
      exact ht
    · exact ⟨by simp, by simpa using hd⟩
    · exact ⟨by simp, by simpa using hd⟩

/-- C9: on any run from a freshly constructed (or reset) detector, every emitted
`interrupt` event has a timestamp of at least 3000: the stored last-interrupt
timestamp starts at 0 and the cooldown guard demands
`timestamp - lastInterruptTs ≥ 3000` before an interrupt may fire. -/
theorem C9_no_interrupt_before_3000 (s p : ℚ) (rs : List ClassificationResult)
    (ts c : ℚ)
    (hmem : UtteranceEvent.interrupt ts c ∈
      (TurnDetector.processAll (TurnDetector.init s p) rs).2) :
    3000 ≤ ts := by
  suffices h : ∀ (d : TurnDetector),
      (d.lastInterruptTs = 0 ∨ 3000 ≤ d.lastInterruptTs) →
      ∀ ts c, UtteranceEvent.interrupt ts c ∈ (TurnDetector.processAll d rs).2 →
      3000 ≤ ts by
    exact h (TurnDetector.init s p) (Or.inl rfl) ts c hmem
  clear hmem
  induction rs with
  | nil => intro d _ ts c hmem; simp [TurnDetector.processAll_nil] at hmem
  | cons r rest ih =>
    intro d hd ts c hmem
    rw [TurnDetector.processAll_cons] at hmem
    rcases List.mem_append.mp hmem with hmem | hmem
    · exact (TurnDetector.interrupt_step d r hd).1 ts c hmem
    · exact ih _ (TurnDetector.interrupt_step d r hd).2 ts c hmem

/-- C9, witness: three qualifying `interrupt_intent` results at t = 3000 make the
detector emit an `interrupt` at timestamp 3000, and the theorem applies to it. -/
theorem C9_witness :
    UtteranceEvent.interrupt 3000 (9/10) ∈
      (TurnDetector.processAll (TurnDetector.init (1/2) 1500)
        [⟨.interrupt_intent, 9/10, 3000⟩, ⟨.interrupt_intent, 9/10, 3000⟩,
         ⟨.interrupt_intent, 9/10, 3000⟩]).2 ∧
    (3000 : ℚ) ≤ 3000 := by
  have hc : (2:ℚ)⁻¹ ≤ 9/10 := by norm_num
  have hinit : TurnDetector.init (1/2) 1500 =
      ⟨.idle, 0, 0, 0, 0, 0, 1/2, 1500⟩ := rfl
  have h1 : TurnDetector.process ⟨.idle, 0, 0, 0, 0, 0, 1/2, 1500⟩
      ⟨.interrupt_intent, 9/10, 3000⟩ = (⟨.idle, 0, 0, 0, 1, 0, 1/2, 1500⟩, []) := by
    simp [TurnDetector.process, TurnDetector.INTERRUPT_DEBOUNCE, hc]
  have h2 : TurnDetector.process ⟨.idle, 0, 0, 0, 1, 0, 1/2, 1500⟩
      ⟨.interrupt_intent, 9/10, 3000⟩ = (⟨.idle, 0, 0, 0, 2, 0, 1/2, 1500⟩, []) := by
    simp [TurnDetector.process, TurnDetector.INTERRUPT_DEBOUNCE, hc]
  have hcool : TurnDetector.INTERRUPT_COOLDOWN_MS ≤ (3000:ℚ) := by
    rw [TurnDetector.INTERRUPT_COOLDOWN_MS]
  have h3 : TurnDetector.process ⟨.idle, 0, 0, 0, 2, 0, 1/2, 1500⟩
      ⟨.interrupt_intent, 9/10, 3000⟩ =
      (⟨.idle, 0, 0, 3000, 0, 0, 1/2, 1500⟩,
       [.interrupt 3000 (9/10)]) := by
    simp [TurnDetector.process, TurnDetector.INTERRUPT_DEBOUNCE, hc, hcool]
  have hmem : UtteranceEvent.interrupt 3000 (9/10) ∈
      (TurnDetector.processAll (TurnDetector.init (1/2) 1500)
        [⟨.interrupt_intent, 9/10, 3000⟩, ⟨.interrupt_intent, 9/10, 3000⟩,
         ⟨.interrupt_intent, 9/10, 3000⟩]).2 := by
    simp only [TurnDetector.processAll_cons, TurnDetector.processAll_nil, hinit,
      h1, h2, h3, List.append_nil, List.nil_append]
    simp
  exact ⟨hmem, C9_no_interrupt_before_3000 (1/2) 1500
    [⟨.interrupt_intent, 9/10, 3000⟩, ⟨.interrupt_intent, 9/10, 3000⟩,
     ⟨.interrupt_intent, 9/10, 3000⟩] 3000 (9/10) hmem⟩

/-- Membership in the invoked-index list of `emitRunFrom`: an index is invoked
exactly when it is in range and every listener strictly before it did not
throw. -/
theorem emitRunFrom_mem (ls : List Bool) (k i : ℕ) :
    i ∈ (emitRunFrom ls k).1 ↔
      (k ≤ i ∧ i < k + ls.length ∧ ∀ b ∈ ls.take (i - k), b = false) := by
  induction ls generalizing k with
  | nil =>
    simp only [emitRunFrom, List.not_mem_nil, false_iff, List.length_nil,
      List.take_nil, false_implies, implies_true, and_true, not_and]
    intro h1 h2
    omega
  | cons b rest ih =>
    cases b
    case true =>
      constructor
      · intro hmem
        have hik : i = k := by simpa [emitRunFrom] using hmem
        subst hik
        refine ⟨le_rfl, ?_, by simp⟩
        simp only [List.length_cons]
        omega
      · rintro ⟨h1, h2, h3⟩
        have hik : i = k := by
          by_contra hne
          have hsub : i - k = (i - (k + 1)) + 1 := by omega
          have hcontra : (true : Bool) = false := h3 true (by
            rw [hsub, List.take_succ_cons]
            exact List.mem_cons_self _ _)
          simp at hcontra
        subst hik
        simp [emitRunFrom]
    case false =>
      have hunfold : emitRunFrom (false :: rest) k =
          (k :: (emitRunFrom rest (k + 1)).1, (emitRunFrom rest (k + 1)).2) := by
        simp [emitRunFrom]
      rw [hunfold]
      simp only [List.mem_cons, List.length_cons]
      constructor
      · rintro (rfl | hmem)
        · refine ⟨le_rfl, by omega, by simp⟩
        · obtain ⟨h1, h2, h3⟩ := (ih (k + 1)).mp hmem
          refine ⟨by omega, by omega, ?_⟩
          intro b hb
          have hsub : i - k = (i - (k + 1)) + 1 := by omega
          rw [hsub, List.take_succ_cons] at hb
          rcases List.mem_cons.mp hb with rfl | hb
          · rfl
          · exact h3 b hb
      · rintro ⟨h1, h2, h3⟩
        rcases eq_or_lt_of_le h1 with rfl | hlt
        · exact Or.inl rfl
        · refine Or.inr ((ih (k + 1)).mpr ⟨by omega, by omega, ?_⟩)
          intro b hb
          apply h3
          have hsub : i - k = (i - (k + 1)) + 1 := by omega
          rw [hsub, List.take_succ_cons]
          exact List.mem_cons_of_mem _ hb

/-- C5, counterexample: a throwing listener does prevent later-registered
listeners for the same event from running. The detector below is the state
reached from `init` after one `speaking` result; the next `speaking` result
fires `speechStart`. With two listeners registered for it, the first throwing,
delivery invokes only listener 0 and the exception escapes: listener 1, though
registered for the same event, is never invoked — refuting the claim that every
other listener is still invoked. -/
theorem C5_counterexample :
    (TurnDetector.processWith ⟨.idle, 0, 0, 0, 0, 1, 1/2, 1500⟩
        ⟨.speaking, 9/10, 100⟩ [true, false]).2 = ([0], true) ∧
    1 ∉ (TurnDetector.processWith ⟨.idle, 0, 0, 0, 0, 1, 1/2, 1500⟩
        ⟨.speaking, 9/10, 100⟩ [true, false]).2.1 := by
  have hrun : (TurnDetector.processWith ⟨.idle, 0, 0, 0, 0, 1, 1/2, 1500⟩
      ⟨.speaking, 9/10, 100⟩ [true, false]).2 = ([0], true) := by
    have hstep : TurnDetector.process ⟨.idle, 0, 0, 0, 0, 1, 1/2, 1500⟩
        ⟨.speaking, 9/10, 100⟩ =
        (⟨.speaking, 0, 100, 0, 0, 0, 1/2, 1500⟩, [.speechStart 100]) := by
      simp [TurnDetector.process, TurnDetector.SPEAK_DEBOUNCE]
    simp only [TurnDetector.processWith]
    rw [hstep]
    simp [emitRun, emitRunFrom]
  exact ⟨hrun, by rw [hrun]; simp⟩

/-- C5, amended: what the code guarantees instead. For every `process` call and
every listener list for the emitted event, (a) the detector state after the
call is exactly the state `process` computes — all state writes precede the
`emit` call, so a throwing listener cannot corrupt detector state — and (b) a
listener is invoked exactly when an event was emitted, the listener is
registered (index in range), and no earlier-registered listener threw; in
particular listeners registered after a throwing one are not invoked. -/
theorem C5_listener_delivery (d : TurnDetector) (r : ClassificationResult)
    (ls : List Bool) :
    (d.processWith r ls).1 = (d.process r).1 ∧
    ∀ i : ℕ, i ∈ (d.processWith r ls).2.1 ↔
      ((d.process r).2 ≠ [] ∧ i < ls.length ∧ ∀ b ∈ ls.take i, b = false) := by
  rcases hev : (d.process r).2 with _ | ⟨e, rest⟩
  · constructor
    · simp [TurnDetector.processWith, hev]
    · intro i
      simp [TurnDetector.processWith, hev]
  · constructor
    · simp [TurnDetector.processWith, hev]
    · intro i
      have hmem := emitRunFrom_mem ls 0 i
      simp only [Nat.zero_add, Nat.le_zero_eq, Nat.zero_le, true_and,
        Nat.sub_zero] at hmem
      simp [TurnDetector.processWith, hev, emitRun, hmem]

/-- C5, witness: the amended theorem applied to a concrete emitting call with
listeners `[false, true, false]`: listener 1 (the thrower) is invoked, listener
2 is not. -/
theorem C5_witness :
    (1 ∈ (TurnDetector.processWith ⟨.idle, 0, 0, 0, 0, 1, 1/2, 1500⟩
        ⟨.speaking, 9/10, 100⟩ [false, true, false]).2.1) ∧
    ¬ (2 ∈ (TurnDetector.processWith ⟨.idle, 0, 0, 0, 0, 1, 1/2, 1500⟩
        ⟨.speaking, 9/10, 100⟩ [false, true, false]).2.1) := by
  have hstep : (TurnDetector.process ⟨.idle, 0, 0, 0, 0, 1, 1/2, 1500⟩
      ⟨.speaking, 9/10, 100⟩).2 = [.speechStart 100] := by
    simp [TurnDetector.process, TurnDetector.SPEAK_DEBOUNCE]
  constructor
  · exact ((C5_listener_delivery ⟨.idle, 0, 0, 0, 0, 1, 1/2, 1500⟩
      ⟨.speaking, 9/10, 100⟩ [false, true, false]).2 1).mpr
      ⟨by rw [hstep]; simp, by simp, by decide⟩
  · intro hmem
    have := ((C5_listener_delivery ⟨.idle, 0, 0, 0, 0, 1, 1/2, 1500⟩
      ⟨.speaking, 9/10, 100⟩ [false, true, false]).2 2).mp hmem
    have hfalse : (true : Bool) = false := this.2.2 true (by decide)
    simp at hfalse

/-- C6: the constructor of `EnergyVAD` derives
`speechThreshold = 0.015 * (1 - 0.8 * s)` and
`silenceThreshold = 0.6 * speechThreshold`, and `classify` always returns a
result following the priority cases of the claim: silence-to-speech at
`energy ≥ speechThreshold` with confidence `min(energy / (4 * speechThreshold), 1)`
and `isSpeaking` set; continued speech at `energy ≥ silenceThreshold` with the
same confidence formula and the silence timer cleared; while speaking below the
silence threshold, `thinking_pause` with confidence 0.6 until 800 ms of silence
have elapsed (timer started at the first sub-threshold frame), then
`turn_complete` with confidence `min(elapsed / 1600, 1)` and `isSpeaking`
cleared; otherwise `thinking_pause` with confidence 0.3. -/
theorem C6_energy_vad_classify (s energy now : ℚ) (v : EnergyVAD)
    (hp : v.pauseHintMs = 800) :
    ((EnergyVAD.init s).speechThreshold = 0.015 * (1 - 0.8 * s) ∧
     (EnergyVAD.init s).silenceThreshold = 0.6 * (EnergyVAD.init s).speechThreshold) ∧
    (v.isSpeaking = false → v.speechThreshold ≤ energy →
      EnergyVAD.classify v energy now =
        ({ v with isSpeaking := true, silenceStart := 0 },
         ⟨.speaking, min (energy / (4 * v.speechThreshold)) 1, now⟩)) ∧
    (v.isSpeaking = true → v.silenceThreshold ≤ energy →
      EnergyVAD.classify v energy now =
        ({ v with silenceStart := 0 },
         ⟨.speaking, min (energy / (4 * v.speechThreshold)) 1, now⟩)) ∧
    (v.isSpeaking = true → energy < v.silenceThreshold →
      ∀ start : ℚ, start = (if v.silenceStart = 0 then now else v.silenceStart) →
        (now - start < 800 →
          EnergyVAD.classify v energy now =
            ({ v with silenceStart := start }, ⟨.thinking_pause, 0.6, now⟩)) ∧
        (800 ≤ now - start →
          EnergyVAD.classify v energy now =
            ({ v with isSpeaking := false, silenceStart := start },
             ⟨.turn_complete, min ((now - start) / 1600) 1, now⟩))) ∧
    (v.isSpeaking = false → energy < v.speechThreshold →
      EnergyVAD.classify v energy now = (v, ⟨.thinking_pause, 0.3, now⟩)) := by
  refine ⟨⟨by norm_num [EnergyVAD.init]; ring,
           by norm_num [EnergyVAD.init]; ring⟩, ?_, ?_, ?_, ?_⟩
  · intro hS hE
    simp [EnergyVAD.classify, EnergyVAD.energyToConfidence, hS, hE, mul_comm]
  · intro hS hE
    have hnotlt : ¬ energy < v.silenceThreshold := not_lt_of_le hE
    simp [EnergyVAD.classify, EnergyVAD.energyToConfidence, hS, hE, mul_comm]
  · intro hS hE start hstart
    have hnE : ¬ v.silenceThreshold ≤ energy := not_le_of_lt hE
    constructor
    · intro hd
      have hnd : ¬ v.pauseHintMs ≤ now - start := by rw [hp]; exact not_le_of_lt hd
      simp only [EnergyVAD.classify, hS, hE, hnE, ← hstart, hnd]
      simp
    · intro hd
      have hyd : v.pauseHintMs ≤ now - start := by rw [hp]; exact hd
      have h1600 : v.pauseHintMs * 2 = 1600 := by rw [hp]; norm_num
      simp only [EnergyVAD.classify, hS, hE, hnE, ← hstart, hyd, h1600]
      simp
  · intro hS hE
    have hnE : ¬ v.speechThreshold ≤ energy := not_le_of_lt hE
    simp [EnergyVAD.classify, hS, hnE]

/-- C6, witness: a fresh `EnergyVAD(sensitivity = 1/2)` (speech threshold
9/1000) classifying a frame of energy 1/100 at time 0 takes the silence-to-speech
case of the theorem. -/
theorem C6_witness :
    (EnergyVAD.init (1/2)).isSpeaking = false ∧
    (EnergyVAD.init (1/2)).speechThreshold ≤ 1/100 ∧
    EnergyVAD.classify (EnergyVAD.init (1/2)) (1/100) 0 =
      ({ EnergyVAD.init (1/2) with isSpeaking := true, silenceStart := 0 },
       ⟨.speaking, min ((1/100) / (4 * (EnergyVAD.init (1/2)).speechThreshold)) 1, 0⟩) :=
  ⟨rfl, by norm_num [EnergyVAD.init],
   ((C6_energy_vad_classify (1/2) (1/100) 0 (EnergyVAD.init (1/2)) rfl).2.1)
     rfl (by norm_num [EnergyVAD.init])⟩

/-- C2: silence-mode hysteresis of the windowed classifier. The flag is entered
exactly when the mean raw energy of the 10 most recent frames (taken on the raw
window, before normalization) is below 0.02, and exited only when that mean
exceeds 0.06. For every inference performed while the flag holds, if the model
argmax label is speaking or interrupt_intent, the returned result instead has
label thinking_pause and confidence `max(model thinking_pause probability, 0.7)`,
hence at least 0.7 (the interrupt energy gate cannot undo the override, since
the overridden label is no longer interrupt_intent). -/
theorem C2_silence_hysteresis :
    (∀ (mode : Bool) (window : List (List ℚ)),
      (mode = false →
        (updateSilenceMode mode (recentRawEnergy window) = true ↔
          recentRawEnergy window < 0.02)) ∧
      (mode = true →
        (updateSilenceMode mode (recentRawEnergy window) = false ↔
          0.06 < recentRawEnergy window))) ∧
    (∀ (mode : Bool) (window : List (List ℚ)) (p0 p1 p2 p3 now : ℚ),
      updateSilenceMode mode (recentRawEnergy window) = true →
      (labelAt (argmax4 p0 p1 p2 p3).1 = ClassificationLabel.speaking ∨
        labelAt (argmax4 p0 p1 p2 p3).1 = ClassificationLabel.interrupt_intent) →
      (runInferenceStep mode window p0 p1 p2 p3 now).2.label =
          ClassificationLabel.thinking_pause ∧
      (runInferenceStep mode window p0 p1 p2 p3 now).2.confidence =
          max p1 0.7 ∧
      (0.7 : ℚ) ≤ (runInferenceStep mode window p0 p1 p2 p3 now).2.confidence) := by
  constructor
  · intro mode window
    constructor
    · rintro rfl
      simp only [updateSilenceMode, SILENCE_ENTER_THRESHOLD]
      rw [if_neg (by simp : ¬((false : Bool) = true))]
      split_ifs with h <;> simp [h]
    · rintro rfl
      simp only [updateSilenceMode, SILENCE_EXIT_THRESHOLD]
      rw [if_pos trivial]
      split_ifs with h <;> simp [h]
  · intro mode window p0 p1 p2 p3 now hmode hlab
    simp only [runInferenceStep, runInferenceGate, hmode]
    have hov : (if True ∧ (labelAt (argmax4 p0 p1 p2 p3).1 =
          ClassificationLabel.speaking ∨
        labelAt (argmax4 p0 p1 p2 p3).1 =
          ClassificationLabel.interrupt_intent) then
        ((1 : ℕ), max p1 0.7)
      else argmax4 p0 p1 p2 p3) = (1, max p1 0.7) := if_pos ⟨trivial, hlab⟩
    rw [hov, if_neg (by simp [labelAt])]
    exact ⟨by simp [labelAt], rfl, le_max_right _ _⟩

/-- C2, witness: a window of ten frames of raw energy 1/100 (below the 0.02
enter threshold) flips the flag on, and with model probabilities
(0.78, 0.1, 0.06, 0.06) — argmax speaking — the override yields thinking_pause
at confidence max(0.1, 0.7) = 0.7. -/
theorem C2_witness :
    updateSilenceMode false
        (recentRawEnergy (List.replicate 10 (List.replicate 17 (1/100)))) = true ∧
    labelAt (argmax4 (78/100) (1/10) (6/100) (6/100)).1 =
        ClassificationLabel.speaking ∧
    (runInferenceStep false (List.replicate 10 (List.replicate 17 (1/100)))
        (78/100) (1/10) (6/100) (6/100) 0).2.label =
        ClassificationLabel.thinking_pause ∧
    (0.7 : ℚ) ≤ (runInferenceStep false
        (List.replicate 10 (List.replicate 17 (1/100)))
        (78/100) (1/10) (6/100) (6/100) 0).2.confidence := by
  have he : recentRawEnergy (List.replicate 10 (List.replicate 17 (1/100)))
      = 1/100 := by
    norm_num [recentRawEnergy, List.sum_replicate]
  have hmode : updateSilenceMode false
      (recentRawEnergy (List.replicate 10 (List.replicate 17 (1/100)))) = true := by
    rw [he]
    norm_num [updateSilenceMode, SILENCE_ENTER_THRESHOLD]
  have hlab : labelAt (argmax4 (78/100) (1/10) (6/100) (6/100)).1 =
      ClassificationLabel.speaking := by
    norm_num [argmax4, labelAt]
  have happ := (C2_silence_hysteresis.2 false
    (List.replicate 10 (List.replicate 17 (1/100)))
    (78/100) (1/10) (6/100) (6/100) 0) hmode (Or.inl hlab)
  exact ⟨hmode, hlab, happ.1, happ.2.2⟩

/-- C7: with a loaded session, `predict` returns the still-buffering sentinel
(null) exactly when, after appending the new frame, fewer than
`INFERENCE_INTERVAL = 10` frames have arrived since the last inference or fewer
than `CONTEXT_FRAMES = 100` frames are buffered; and whenever inference runs,
the buffer has exactly reached its full 100-frame capacity (given the counter
invariant `framesBuffered ≤ 100` that `addFrame` maintains). The null return is
the `buffering` outcome, distinct from both the inference and the fallback
answers. -/
theorem C7_predict_buffering (m : ONNXModel) (frame : List ℚ)
    (hs : m.sessionLoaded = true) (hcap : m.framesBuffered ≤ 100) :
    ((m.predictStep frame).2 = ONNXModel.PredictOutcome.buffering ↔
      (m.framesSinceInference + 1 < 10 ∨
       (if m.framesBuffered < 100 then m.framesBuffered + 1
        else m.framesBuffered) < 100)) ∧
    ((m.predictStep frame).2 = ONNXModel.PredictOutcome.inferred →
      (if m.framesBuffered < 100 then m.framesBuffered + 1
       else m.framesBuffered) = 100) ∧
    (m.predictStep frame).2 ≠ ONNXModel.PredictOutcome.fallback := by
  have hns : ¬ m.sessionLoaded = false := by rw [hs]; simp
  simp only [ONNXModel.predictStep, ONNXModel.addFrame, if_neg hns,
    INFERENCE_INTERVAL, CONTEXT_FRAMES]
  by_cases hrun : 10 ≤ m.framesSinceInference + 1 ∧
      100 ≤ (if m.framesBuffered < 100 then m.framesBuffered + 1
             else m.framesBuffered)
  · rw [if_pos hrun]
    refine ⟨by simp; omega, fun _ => ?_, by simp⟩
    rcases hrun with ⟨-, h100⟩
    split_ifs at h100 ⊢ <;> omega
  · rw [if_neg hrun]
    refine ⟨by simp; omega, by simp, by simp⟩

/-- C7, witness: a loaded model with 50 frames buffered and 9 frames since the
last inference returns the buffering sentinel on the next frame (only 51
buffered), by the theorem. -/
theorem C7_witness :
    (ONNXModel.predictStep ⟨true, [], 50, 9, false⟩ []).2 =
      ONNXModel.PredictOutcome.buffering :=
  ((C7_predict_buffering ⟨true, [], 50, 9, false⟩ [] rfl (by simp)).1).mpr
    (Or.inr (by simp))

namespace FeatureExtractor

/-- Unfolding lemma for `extractRun` on a cons. -/
theorem extractRun_cons (s : FeatureExtractor) (e : ℚ) (es : List ℚ) :
    extractRun s (e :: es) =
      ((extractRun (extractStep s e).1 es).1,
       (extractStep s e).2 :: (extractRun (extractStep s e).1 es).2) := rfl

/-- Unfolding lemma for `extractRun` on the empty list. -/
theorem extractRun_nil (s : FeatureExtractor) : extractRun s [] = (s, []) := rfl

/-- The speech rate the source computes is never negative. -/
theorem estimateSpeechRate_nonneg (w : List ℚ) : 0 ≤ estimateSpeechRate w := by
  simp only [estimateSpeechRate]
  split_ifs with h1 h2
  · exact le_refl 0
  · positivity
  · norm_num

/-- The pause state stays nonnegative and the reported pause duration stays in
[0, 1]. -/
theorem updatePauseDuration_range (acc e : ℚ) (h : 0 ≤ acc) :
    0 ≤ (updatePauseDuration acc e).1 ∧
    0 ≤ (updatePauseDuration acc e).2 ∧ (updatePauseDuration acc e).2 ≤ 1 := by
  have hacc : 0 ≤ (if e < silenceThreshold then acc + frameDurationSec else 0) := by
    split_ifs with hE
    · have hfd : (0:ℚ) ≤ frameDurationSec := by rw [frameDurationSec]; norm_num
      linarith
    · exact le_refl 0
  have hmin0 : 0 ≤
      min (if e < silenceThreshold then acc + frameDurationSec else 0) 5 :=
    le_min hacc (by norm_num)
  have hmin5 :
      min (if e < silenceThreshold then acc + frameDurationSec else 0) 5 ≤ 5 :=
    min_le_right _ _
  refine ⟨hacc, ?_, ?_⟩
  · exact div_nonneg hmin0 (by norm_num)
  · show min (if e < silenceThreshold then acc + frameDurationSec else 0) 5 / 5 ≤ 1
    rw [div_le_one (by norm_num : (0:ℚ) < 5)]
    exact hmin5

end FeatureExtractor

/-- C8, counterexample: the speech-rate feature can exceed 1. Extracting the
five frame energies 0, 0, 1/2, 0, 0 from a fresh extractor gives, on the fifth
call, one peak in a 5-frame (0.05 s) window: speech rate
`(1 / 0.05) / 10 = 2 > 1`, refuting the claim that every returned speechRate
lies in [0, 1]. (Energy 1/2 is the exact RMS of any constant frame of samples
1/2; energy 0 is the RMS of a silent frame.) -/
theorem C8_counterexample :
    (((FeatureExtractor.extractRun FeatureExtractor.init
        [0, 0, 1/2, 0, 0]).2).getD 4 (0, 0)).1 = 2 ∧ (1 : ℚ) < 2 := by
  have hrange : List.range 5 = [0, 1, 2, 3, 4] := rfl
  have hpeaks : FeatureExtractor.countPeaks [0, 0, 1/2, 0, 0] = 1 := by
    rw [FeatureExtractor.countPeaks]
    norm_num [hrange, List.countP_cons, List.countP_nil, FeatureExtractor.isPeak,
      FeatureExtractor.silenceThreshold, List.getD_cons_zero, List.getD_cons_succ]
  have hs1 : FeatureExtractor.extractStep ⟨0, []⟩ 0 =
      (⟨1/100, [0]⟩, 0, 1/500) := by
    norm_num [FeatureExtractor.extractStep, FeatureExtractor.pushEnergy,
      FeatureExtractor.estimateSpeechRate, FeatureExtractor.updatePauseDuration,
      FeatureExtractor.silenceThreshold, FeatureExtractor.frameDurationSec,
      FeatureExtractor.energyBufferCapacity, min_def]
  have hs2 : FeatureExtractor.extractStep ⟨1/100, [0]⟩ 0 =
      (⟨1/50, [0, 0]⟩, 0, 1/250) := by
    norm_num [FeatureExtractor.extractStep, FeatureExtractor.pushEnergy,
      FeatureExtractor.estimateSpeechRate, FeatureExtractor.updatePauseDuration,
      FeatureExtractor.silenceThreshold, FeatureExtractor.frameDurationSec,
      FeatureExtractor.energyBufferCapacity, min_def]
  have hs3 : FeatureExtractor.extractStep ⟨1/50, [0, 0]⟩ (1/2) =
      (⟨0, [0, 0, 1/2]⟩, 0, 0) := by
    norm_num [FeatureExtractor.extractStep, FeatureExtractor.pushEnergy,
      FeatureExtractor.estimateSpeechRate, FeatureExtractor.updatePauseDuration,
      FeatureExtractor.silenceThreshold, FeatureExtractor.frameDurationSec,
      FeatureExtractor.energyBufferCapacity, min_def]
  have hs4 : FeatureExtractor.extractStep ⟨0, [0, 0, 1/2]⟩ 0 =
      (⟨1/100, [0, 0, 1/2, 0]⟩, 0, 1/500) := by
    norm_num [FeatureExtractor.extractStep, FeatureExtractor.pushEnergy,
      FeatureExtractor.estimateSpeechRate, FeatureExtractor.updatePauseDuration,
      FeatureExtractor.silenceThreshold, FeatureExtractor.frameDurationSec,
      FeatureExtractor.energyBufferCapacity, min_def]
  have hs5 : FeatureExtractor.extractStep ⟨1/100, [0, 0, 1/2, 0]⟩ 0 =
      (⟨1/50, [0, 0, 1/2, 0, 0]⟩, 2, 1/250) := by
    norm_num [FeatureExtractor.extractStep, FeatureExtractor.pushEnergy,
      FeatureExtractor.estimateSpeechRate, FeatureExtractor.updatePauseDuration,
      FeatureExtractor.silenceThreshold, FeatureExtractor.frameDurationSec,
      FeatureExtractor.energyBufferCapacity, min_def, hpeaks]
  refine ⟨?_, by norm_num⟩
  have hinit : FeatureExtractor.init = (⟨0, []⟩ : FeatureExtractor) := rfl
  simp only [FeatureExtractor.extractRun_cons, FeatureExtractor.extractRun_nil,
    hinit, hs1, hs2, hs3, hs4, hs5]
  rfl

/-- C8, amended: over every sequence of extract calls from a fresh extractor,
each returned pair has a nonnegative speechRate (equal by definition to
`(peaks / windowDuration) / 10`, 0 below 5 buffered frames — but it can exceed
1, as the counterexample shows) and a pauseDuration in [0, 1]
(`min(accumulated, 5) / 5` of a nonnegative accumulator). -/
theorem C8_feature_ranges (es : List ℚ) (out : ℚ × ℚ)
    (hmem : out ∈ (FeatureExtractor.extractRun FeatureExtractor.init es).2) :
    0 ≤ out.1 ∧ 0 ≤ out.2 ∧ out.2 ≤ 1 := by
  suffices h : ∀ s : FeatureExtractor, 0 ≤ s.silenceAccumulator →
      ∀ out : ℚ × ℚ, out ∈ (FeatureExtractor.extractRun s es).2 →
      0 ≤ out.1 ∧ 0 ≤ out.2 ∧ out.2 ≤ 1 by
    exact h FeatureExtractor.init (le_refl 0) out hmem
  clear hmem
  induction es with
  | nil =>
    intro s hs out hmem
    simp [FeatureExtractor.extractRun_nil] at hmem
  | cons e rest ih =>
    intro s hs out hmem
    rw [FeatureExtractor.extractRun_cons] at hmem
    rcases List.mem_cons.mp hmem with rfl | hmem
    · refine ⟨?_, ?_, ?_⟩
      · exact FeatureExtractor.estimateSpeechRate_nonneg _
      · exact (FeatureExtractor.updatePauseDuration_range
          s.silenceAccumulator e hs).2.1
      · exact (FeatureExtractor.updatePauseDuration_range
          s.silenceAccumulator e hs).2.2
    · exact ih _ (FeatureExtractor.updatePauseDuration_range
        s.silenceAccumulator e hs).1 out hmem

/-- C8, witness: a single silent frame yields the pair (0, 1/500), to which the
amended range theorem applies. -/
theorem C8_witness :
    ((0 : ℚ), (1/500 : ℚ)) ∈
      (FeatureExtractor.extractRun FeatureExtractor.init [0]).2 ∧
    (0 ≤ (0 : ℚ) ∧ 0 ≤ (1/500 : ℚ) ∧ (1/500 : ℚ) ≤ 1) := by
  have hs1 : FeatureExtractor.extractStep ⟨0, []⟩ 0 =
      (⟨1/100, [0]⟩, 0, 1/500) := by
    norm_num [FeatureExtractor.extractStep, FeatureExtractor.pushEnergy,
      FeatureExtractor.estimateSpeechRate, FeatureExtractor.updatePauseDuration,
      FeatureExtractor.silenceThreshold, FeatureExtractor.frameDurationSec,
      FeatureExtractor.energyBufferCapacity, min_def]
  have hmem : ((0 : ℚ), (1/500 : ℚ)) ∈
      (FeatureExtractor.extractRun FeatureExtractor.init [0]).2 := by
    have hinit : FeatureExtractor.init = (⟨0, []⟩ : FeatureExtractor) := rfl
    simp only [FeatureExtractor.extractRun_cons, FeatureExtractor.extractRun_nil,
      hinit, hs1]
    simp
  exact ⟨hmem, C8_feature_ranges [0] (0, 1/500) hmem⟩

/-- C10: `start()` while listening returns immediately — no model load, no
callback registration, no capture start, no state change at all — and `stop()`
while not listening performs no effect and no state change; consequently the
second of two consecutive `start()` calls is a no-op (one `start` ends with
`listening = true`), and the second of two consecutive `stop()` calls is a
no-op, so two consecutive calls are equivalent to one. -/
theorem C10_start_stop_idempotent (u : Utterance) :
    (u.listening = true → u.start = (u, [])) ∧
    (u.listening = false → u.stop = (u, [])) ∧
    (u.start).1.start = ((u.start).1, []) ∧
    (u.stop).1.stop = ((u.stop).1, []) := by
  refine ⟨fun h => ?_, fun h => ?_, ?_, ?_⟩
  · rw [Utterance.start, if_pos h]
  · rw [Utterance.stop, if_pos h]
  · have hl : (u.start).1.listening = true := by
      rw [Utterance.start]
      split_ifs with h
      · exact h
      · rfl
    rw [Utterance.start, if_pos hl]
  · have hl : (u.stop).1.listening = false := by
      rw [Utterance.stop]
      split_ifs with h
      · exact h
      · rfl
    rw [Utterance.stop, if_pos hl]

/-- C10, witness: the theorem applied to a listening instance (its `start` is
an exact no-op) and, through the idempotence conjunct, to a fresh non-listening
instance. -/
theorem C10_witness :
    Utterance.start ⟨true, false, 0, true, true, TurnDetector.init (1/2) 1500⟩ =
      (⟨true, false, 0, true, true, TurnDetector.init (1/2) 1500⟩, []) ∧
    Utterance.stop ⟨false, false, 0, false, false, TurnDetector.init (1/2) 1500⟩ =
      (⟨false, false, 0, false, false, TurnDetector.init (1/2) 1500⟩, []) :=
  ⟨(C10_start_stop_idempotent
      ⟨true, false, 0, true, true, TurnDetector.init (1/2) 1500⟩).1 rfl,
   (C10_start_stop_idempotent
      ⟨false, false, 0, false, false, TurnDetector.init (1/2) 1500⟩).2.1 rfl⟩

end Utter
